import Mathlib

/-
Verification of the Markdown Line Transducer of
`scripts/generate_posts_index.py` (function `md_to_html_body`).

The embedding works on `List Char`.  Python strings become `List Char`
(converted at the boundary from Lean `String`); the regular expressions of
the source are translated into the explicit scans they denote:

* `line.strip().startswith('```')`            → `fenceL`
* `re.match(r'^(#{1,6})\s+(.*)$', line)`      → `headingParse`
* `re.match(r'^\s*[-*]\s+.+', line)`          → `listMatch`
* `re.sub(r'^\s*[-*]\s+', '', line)`          → `stripBullet`
* `re.sub(r"\[([^\]]+)\]\(([^)]+)\)", ...)`   → `linkSub`
* `re.sub(r'&', '&amp;', re.sub(r'<', '&lt;', line))` → `escapeCode`
* `md.splitlines()`                           → `splitLinesL`
  (universal newlines LF, CRLF, CR; the rare extra control separators of
  Python `str.splitlines` are not exercised by any post or claim)
* Python whitespace (`str.strip`, `\s`)       → `isPySpace` (ASCII subset)
-/

/-- Python ASCII whitespace, as used by `str.strip()` and regex `\s`. -/
def isPySpace (c : Char) : Bool :=
  c == ' ' || c == '\t' || c == '\n' || c == '\r' || c == '\x0b' || c == '\x0c'

/-- Python `s.strip()` on a list of characters. -/
def stripL (l : List Char) : List Char :=
  ((l.dropWhile isPySpace).reverse.dropWhile isPySpace).reverse

/-- Python `raw.rstrip('\n')`. -/
def rstripNL (l : List Char) : List Char :=
  (l.reverse.dropWhile (fun c => c == '\n')).reverse

/-- Python `line.strip().startswith('```')`. -/
def fenceL (l : List Char) : Bool :=
  "```".toList.isPrefixOf (stripL l)

/-- Python `re.match(r'^(#{1,6})\s+(.*)$', line)`: 1 to 6 leading `#`
characters followed by at least one whitespace character; returns the
number of `#` characters and the stripped remainder
(`level = len(m.group(1))`, `text = m.group(2).strip()` — since the greedy
`\s+` only eats leading whitespace that `strip()` would remove anyway,
`m.group(2).strip()` equals the strip of everything after the hashes). -/
def headingParse (l : List Char) : Option (Nat × List Char) :=
  let n := (l.takeWhile (fun c => c == '#')).length
  let rest := l.dropWhile (fun c => c == '#')
  if 1 ≤ n ∧ n ≤ 6 then
    match rest with
    | c :: _ => if isPySpace c then some (n, stripL rest) else none
    | [] => none
  else none

/-- Python `f"<h{level}>{text}</h{level}>"`. -/
def headingTag (n : Nat) (t : List Char) : List Char :=
  "<h".toList ++ (toString n).toList ++ ">".toList ++ t
    ++ "</h".toList ++ (toString n).toList ++ ">".toList

/-- Python `re.match(r'^\s*[-*]\s+.+', line)`: optional leading whitespace,
a bullet, at least one whitespace character, at least one further
character. -/
def listMatch (l : List Char) : Bool :=
  match l.dropWhile isPySpace with
  | b :: d :: _ :: _ => (b == '-' || b == '*') && isPySpace d
  | _ => false

/-- Python `re.sub(r'^\s*[-*]\s+', '', line)`: remove leading whitespace,
the bullet and the whitespace run after it; leave the line unchanged when
the pattern does not match. -/
def stripBullet (l : List Char) : List Char :=
  match l.dropWhile isPySpace with
  | b :: d :: rest =>
    if (b == '-' || b == '*') && isPySpace d then rest.dropWhile isPySpace else l
  | _ => l

/-- One attempted match of `\[([^\]]+)\]\(([^)]+)\)` starting right after a
`[`: a non-empty label free of `]`, then `](`, then a non-empty target free
of `)`, then `)`.  Returns `(label, target, remainder)` on success. -/
def matchLink (rest : List Char) : Option (List Char × List Char × List Char) :=
  let label := rest.takeWhile (fun c => !(c == ']'))
  let r1 := rest.dropWhile (fun c => !(c == ']'))
  if label.isEmpty then none
  else
    match r1 with
    | ']' :: '(' :: r2 =>
      let target := r2.takeWhile (fun c => !(c == ')'))
      let r3 := r2.dropWhile (fun c => !(c == ')'))
      if target.isEmpty then none
      else
        match r3 with
        | ')' :: r4 => some (label, target, r4)
        | _ => none
    | _ => none

/-- The replacement template `r'<a href="\2">\1</a>'`. -/
def linkAnchor (label target : List Char) : List Char :=
  "<a href=\"".toList ++ target ++ "\">".toList ++ label ++ "</a>".toList

/-- Fuelled left-to-right non-overlapping substitution of the link pattern,
the scan of `re.sub`.  The fuel only forces structural recursion; it is
initialised to the length of the list, which is always sufficient because
every step consumes at least one character. -/
def linkSubF : Nat → List Char → List Char
  | 0, l => l
  | _ + 1, [] => []
  | fuel + 1, c :: rest =>
    if c == '[' then
      match matchLink rest with
      | some (label, target, r4) => linkAnchor label target ++ linkSubF fuel r4
      | none => c :: linkSubF fuel rest
    else c :: linkSubF fuel rest

/-- Python `re.sub(r"\[([^\]]+)\]\(([^)]+)\)", r'<a href="\2">\1</a>', text)`. -/
def linkSub (l : List Char) : List Char :=
  linkSubF l.length l

/-- True when some position of the list starts a successful match of the
link pattern (a non-empty label and a non-empty target). -/
def hasLink : List Char → Bool
  | [] => false
  | c :: rest => (c == '[' && (matchLink rest).isSome) || hasLink rest

/-- Replace every occurrence of the character `c` by the string `rep`
(the effect of `re.sub` with a single-character pattern). -/
def replaceChar (c : Char) (rep : List Char) : List Char → List Char
  | [] => []
  | x :: xs => (if x == c then rep else [x]) ++ replaceChar c rep xs

/-- Python `re.sub(r'&', '&amp;', re.sub(r'<', '&lt;', line))`: the inner
substitution (`<` to `&lt;`) runs first, the outer one (`&` to `&amp;`)
runs on its result. -/
def escapeCode (l : List Char) : List Char :=
  replaceChar '&' "&amp;".toList (replaceChar '<' "&lt;".toList l)

/-- Python `sep.join(parts)`. -/
def joinWith (sep : List Char) : List (List Char) → List Char
  | [] => []
  | [x] => x
  | x :: xs => x ++ sep ++ joinWith sep xs

/-- The Transduction State of one conversion: the emitted HTML blocks, the
`in_code` and `in_list` flags, and the pending paragraph lines. -/
structure MDState where
  out : List (List Char)
  in_code : Bool
  in_list : Bool
  para : List (List Char)
deriving DecidableEq, Repr

/-- The paragraph element built by `flush_para`:
`f"<p>{re.sub(link_pattern, anchor, ' '.join(para).strip())}</p>"`. -/
def pTag (para : List (List Char)) : List Char :=
  "<p>".toList ++ linkSub (stripL (joinWith [' '] para)) ++ "</p>".toList

/-- Python `flush_para()`: a no-op when the buffer is empty, otherwise
emit the paragraph element and clear the buffer. -/
def flushPara (s : MDState) : MDState :=
  if s.para = [] then s
  else { s with out := s.out ++ [pTag s.para], para := [] }

/-- Python `flush_list()`: when a list is open, emit `</ul>` and leave
list mode. -/
def flushList (s : MDState) : MDState :=
  if s.in_list then { s with out := s.out ++ ["</ul>".toList], in_list := false } else s

/-- The list-item element: strip the bullet, substitute links, wrap. -/
def liTag (line : List Char) : List Char :=
  "  <li>".toList ++ linkSub (stripBullet line) ++ "</li>".toList

/-- The fence branch after `flush_para(); flush_list()`: toggle `in_code`,
emitting the opening or the closing tag. -/
def fenceStep (s1 : MDState) : MDState :=
  if s1.in_code then { s1 with out := s1.out ++ ["</code></pre>".toList], in_code := false }
  else { s1 with out := s1.out ++ ["<pre><code>".toList], in_code := true }

/-- The heading branch after `flush_para(); flush_list()`. -/
def headingStep (s1 : MDState) (n : Nat) (t : List Char) : MDState :=
  { s1 with out := s1.out ++ [headingTag n t] }

/-- Entering list mode: `out.append('<ul>'); in_list = True` (the caller
has already flushed the paragraph). -/
def openList (sp : MDState) : MDState :=
  { sp with out := sp.out ++ ["<ul>".toList], in_list := true }

/-- Emitting one list item. -/
def listStep (s1 : MDState) (line : List Char) : MDState :=
  { s1 with out := s1.out ++ [liTag line] }

/-- The final two statements of the loop body: a blank line flushes the
paragraph, any other line is appended to the paragraph buffer. -/
def textStep (s1 : MDState) (line : List Char) : MDState :=
  if stripL line = [] then flushPara s1 else { s1 with para := s1.para ++ [line] }

/-- The classification of one (already `rstrip`-ed) line, in the priority
order of the source: fence toggle, code line, heading, list item, then the
blank/text fallthrough (where `flush_list` runs only when a list is open
and the line is blank). -/
def pLine (s : MDState) (line : List Char) : MDState :=
  if fenceL line then fenceStep (flushList (flushPara s))
  else if s.in_code then { s with out := s.out ++ [escapeCode line] }
  else
    match headingParse line with
    | some (n, t) => headingStep (flushList (flushPara s)) n t
    | none =>
      if listMatch line then
        listStep (if s.in_list then s else openList (flushPara s)) line
      else
        textStep (if s.in_list ∧ stripL line = [] then flushList s else s) line

/-- One iteration of `for raw in md.splitlines()`: `line = raw.rstrip('\n')`
followed by the classification. -/
def stepLine (s : MDState) (raw : List Char) : MDState :=
  pLine s (rstripNL raw)

/-- The state at the start of one conversion. -/
def initState : MDState := ⟨[], false, false, []⟩

/-- Worker of `splitLinesL`: accumulates the current line (reversed) and
splits at LF, CRLF or CR; like Python `str.splitlines`, a terminating
separator produces no empty final line. -/
def splitLinesGo : List Char → List Char → List (List Char)
  | [], acc => [acc.reverse]
  | '\r' :: '\n' :: rest, acc => acc.reverse :: (if rest.isEmpty then [] else splitLinesGo rest [])
  | '\n' :: rest, acc => acc.reverse :: (if rest.isEmpty then [] else splitLinesGo rest [])
  | '\r' :: rest, acc => acc.reverse :: (if rest.isEmpty then [] else splitLinesGo rest [])
  | c :: rest, acc => splitLinesGo rest (c :: acc)

/-- Python `md.splitlines()` (universal newlines). -/
def splitLinesL (l : List Char) : List (List Char) :=
  if l.isEmpty then [] else splitLinesGo l []

/-- End-of-input handling: `flush_para(); flush_list()`, then the forced
`</code></pre>` when a code block is still open. -/
def finalOut (s : MDState) : List (List Char) :=
  (flushList (flushPara s)).out
    ++ (if (flushList (flushPara s)).in_code then ["</code></pre>".toList] else [])

/-- Python `md_to_html_body(md)`: fold the line transducer over the lines
of the input and join the emitted blocks with a newline. -/
def md_to_html_body (md : String) : String :=
  String.mk (joinWith ['\n'] (finalOut ((splitLinesL md.toList).foldl stepLine initState)))

-- Field lemmas for the two flush operations.


@[simp] theorem flushPara_in_code (s : MDState) : (flushPara s).in_code = s.in_code := by
  unfold flushPara; split <;> rfl

@[simp] theorem flushPara_in_list (s : MDState) : (flushPara s).in_list = s.in_list := by
  unfold flushPara; split <;> rfl

@[simp] theorem flushPara_para (s : MDState) : (flushPara s).para = [] := by
  unfold flushPara; split
  · next h => exact h
  · rfl

@[simp] theorem flushList_in_code (s : MDState) : (flushList s).in_code = s.in_code := by
  unfold flushList; split <;> rfl

@[simp] theorem flushList_in_list (s : MDState) : (flushList s).in_list = false := by
  unfold flushList; split
  · rfl
  · next h => simp [Bool.not_eq_true] at h; exact h

@[simp] theorem flushList_para (s : MDState) : (flushList s).para = s.para := by
  unfold flushList; split <;> rfl

/-- C1: the spec asks for `&`-escaping before `<`-escaping inside code
blocks, so that a code line containing `<` shows as `&lt;`.  The source
nests the substitutions the other way round (`<` first, then `&`), so the
`&` of the freshly introduced `&lt;` is escaped again and the code line
`a<b` is emitted as `a&amp;lt;b`, not `a&lt;b`. -/
theorem C1_escape_order_bug :
    md_to_html_body "```\na<b\n```" = "<pre><code>\na&amp;lt;b\n</code></pre>"
      ∧ escapeCode "a<b".toList = "a&amp;lt;b".toList
      ∧ escapeCode "a<b".toList ≠ "a&lt;b".toList := by
  refine ⟨by decide, by decide, by decide⟩

/-- C4: converting `"# Title\n\nHello [world](http://x) there."` yields
exactly two blocks, the `<h1>` heading and the link-substituted paragraph,
joined by one newline. -/
theorem C4_heading_then_paragraph :
    finalOut ((splitLinesL "# Title\n\nHello [world](http://x) there.".toList).foldl
        stepLine initState)
      = ["<h1>Title</h1>".toList,
         "<p>Hello <a href=\"http://x\">world</a> there.</p>".toList]
    ∧ md_to_html_body "# Title\n\nHello [world](http://x) there."
      = "<h1>Title</h1>\n<p>Hello <a href=\"http://x\">world</a> there.</p>" := by
  refine ⟨by decide, by decide⟩

/-- C5: consecutive list-item lines merge into a single list: one `<ul>`,
two `<li>` items, one `</ul>`, in that order. -/
theorem C5_list_merge :
    finalOut ((splitLinesL "- a\n- b\n".toList).foldl stepLine initState)
      = ["<ul>".toList, "  <li>a</li>".toList, "  <li>b</li>".toList, "</ul>".toList]
    ∧ md_to_html_body "- a\n- b\n" = "<ul>\n  <li>a</li>\n  <li>b</li>\n</ul>" := by
  refine ⟨by decide, by decide⟩

/-- C7: the content of a fenced code block is not interpreted as Markdown:
`"```\n# not a heading\n```"` produces the literal line between
`<pre><code>` and `</code></pre>`, and no `<h1>` occurs anywhere in the
output. -/
theorem C7_fence_protects_content :
    md_to_html_body "```\n# not a heading\n```"
      = "<pre><code>\n# not a heading\n</code></pre>"
    ∧ ¬ ("<h1>".toList <:+: (md_to_html_body "```\n# not a heading\n```").toList) := by
  refine ⟨by decide, by decide⟩

/-- C9: the transducer is total — it is a plain Lean function, so every
input produces an output — and the empty input produces the empty
output. -/
theorem C9_total_and_empty :
    md_to_html_body "" = "" ∧ ∀ md : String, ∃ out : String, md_to_html_body md = out :=
  ⟨by decide, fun md => ⟨md_to_html_body md, rfl⟩⟩

-- Preservation of the surviving exclusivity invariant: code mode never
-- coexists with an open list or a pending paragraph.

theorem pLine_code_excl (s : MDState) (line : List Char)
    (ih : s.in_code = true → s.in_list = false ∧ s.para = []) :
    (pLine s line).in_code = true →
      (pLine s line).in_list = false ∧ (pLine s line).para = [] := by
  unfold pLine fenceStep headingStep openList listStep textStep
  split
  · split <;> intro h <;> simp_all
  · split
    · next hcode => intro _; simpa using ih hcode
    · next hcode =>
      split
      · intro h; simp_all
      · split
        · split <;> intro h <;> simp_all
        · split <;> intro h <;> by_cases hs : s.in_list = true <;> simp_all

theorem foldl_code_excl (lines : List (List Char)) :
    ∀ s : MDState, (s.in_code = true → s.in_list = false ∧ s.para = []) →
      (lines.foldl stepLine s).in_code = true →
        (lines.foldl stepLine s).in_list = false ∧ (lines.foldl stepLine s).para = [] := by
  induction lines with
  | nil => intro s ih; exact ih
  | cons l ls IH => intro s ih; exact IH (stepLine s l) (pLine_code_excl s (rstripNL l) ih)

/-- C2, counterexample: after converting the two lines of `"- a\nb"` the
state has `in_list = true` and a non-empty paragraph buffer at the same
time — the plain text line `b` was buffered without closing the open list,
so the claimed three-way mutual exclusion is violated. -/
theorem C2_counterexample :
    ((splitLinesL "- a\nb".toList).foldl stepLine initState).in_list = true
      ∧ ((splitLinesL "- a\nb".toList).foldl stepLine initState).para ≠ [] := by
  refine ⟨by decide, by decide⟩

/-- C2, amended: code mode is exclusive — at every point of a conversion
(after any sequence of lines processed from the initial state), if
`in_code` is true then `in_list` is false and the paragraph buffer is
empty.  (An open list and a non-empty paragraph buffer, however, can be
active simultaneously.) -/
theorem C2_code_mode_exclusive (lines : List (List Char))
    (h : (lines.foldl stepLine initState).in_code = true) :
    (lines.foldl stepLine initState).in_list = false
      ∧ (lines.foldl stepLine initState).para = [] :=
  foldl_code_excl lines initState (fun h0 => absurd h0 (by decide)) h

theorem C2_code_mode_exclusive_witness :
    ((["```".toList, "x".toList]).foldl stepLine initState).in_list = false
      ∧ ((["```".toList, "x".toList]).foldl stepLine initState).para = [] :=
  C2_code_mode_exclusive ["```".toList, "x".toList] (by decide)

-- The substitution scan is the identity on text without a full link match.

theorem linkSubF_of_no_link (fuel : Nat) :
    ∀ l : List Char, hasLink l = false → linkSubF fuel l = l := by
  induction fuel with
  | zero => intro l _; rfl
  | succ n IH =>
    intro l hl
    cases l with
    | nil => rfl
    | cons c rest =>
      unfold hasLink at hl
      rw [Bool.or_eq_false_iff] at hl
      obtain ⟨h1, h2⟩ := hl
      by_cases hc : (c == '[') = true
      · simp [hc] at h1
        have hm : matchLink rest = none := by
          cases hmm : matchLink rest
          · rfl
          · rw [hmm] at h1; simp at h1
        simp [linkSubF, hc, hm, IH rest h2]
      · have hc' : (c == '[') = false := by simpa using hc
        simp [linkSubF, hc', IH rest h2]

/-- C10: the link substitution rewrites only occurrences with a non-empty
label and a non-empty target: text with no such occurrence is left
unchanged, and in particular `[](http://x)` and `[x]()` survive untouched,
both in a paragraph and in a list item. -/
theorem C10_links_need_nonempty_parts :
    (∀ l : List Char, hasLink l = false → linkSub l = l)
    ∧ linkSub "[](http://x)".toList = "[](http://x)".toList
    ∧ linkSub "[x]()".toList = "[x]()".toList
    ∧ md_to_html_body "[](http://x)\n\n- [x]()"
        = "<p>[](http://x)</p>\n<ul>\n  <li>[x]()</li>\n</ul>" := by
  refine ⟨fun l h => linkSubF_of_no_link l.length l h, by decide, by decide, by decide⟩

theorem C10_links_need_nonempty_parts_witness :
    linkSub "[](http://x) no link".toList = "[](http://x) no link".toList :=
  C10_links_need_nonempty_parts.1 "[](http://x) no link".toList (by decide)

-- Structure of `stripL` on a line whose first character is not whitespace.

theorem stripL_cons_of_not_space (c : Char) (m : List Char) (hc : isPySpace c = false) :
    ∃ m', stripL (c :: m) = c :: m' := by
  unfold stripL
  rw [List.dropWhile_cons, if_neg (by simp [hc])]
  rw [List.reverse_cons, List.dropWhile_append]
  split
  · refine ⟨[], ?_⟩
    rw [List.dropWhile_cons, if_neg (by simp [hc])]
    rfl
  · refine ⟨(m.reverse.dropWhile isPySpace).reverse, ?_⟩
    rw [List.reverse_append]
    rfl

-- A line accepted by the heading pattern starts with `#`, hence strips to
-- a list headed by `#`, is not a fence line and is not blank.

theorem headingParse_head {l : List Char} {n : Nat} {t : List Char}
    (h : headingParse l = some (n, t)) : ∃ rest, l = '#' :: rest := by
  cases l with
  | nil => simp [headingParse] at h
  | cons c r =>
    by_cases hc : c = '#'
    · exact ⟨r, by rw [hc]⟩
    · simp [headingParse, List.takeWhile_cons, hc] at h

theorem headingParse_strip {l : List Char} {n : Nat} {t : List Char}
    (h : headingParse l = some (n, t)) : ∃ m, stripL l = '#' :: m := by
  obtain ⟨rest, rfl⟩ := headingParse_head h
  exact stripL_cons_of_not_space '#' rest (by decide)

theorem headingParse_not_fence {l : List Char} {n : Nat} {t : List Char}
    (h : headingParse l = some (n, t)) : fenceL l = false := by
  obtain ⟨m, hm⟩ := headingParse_strip h
  unfold fenceL
  rw [hm]
  rfl

theorem headingParse_eq_none_of_blank {l : List Char} (h : stripL l = []) :
    headingParse l = none := by
  cases hp : headingParse l with
  | none => rfl
  | some nt =>
    obtain ⟨n1, t1⟩ := nt
    obtain ⟨m, hm⟩ := headingParse_strip hp
    rw [hm] at h
    exact absurd h (by simp)

/-- C6: a line matching the heading pattern (1–6 leading `#` characters
followed by whitespace), processed outside a code block, flushes the
paragraph and the list and emits `<hN>text</hN>` where `N` is the number
of `#` characters and `text` is the trimmed remainder with no link
substitution applied (`headingTag` embeds the text verbatim).  The
hypothesis `rstripNL line = line` says the line carries no trailing
newline, which holds for every line produced by `splitlines`. -/
theorem C6_heading_line (s : MDState) (line : List Char) (n : Nat) (t : List Char)
    (hnl : rstripNL line = line) (hcode : s.in_code = false)
    (hm : headingParse line = some (n, t)) :
    stepLine s line =
      { out := (flushList (flushPara s)).out ++ [headingTag n t],
        in_code := false, in_list := false, para := [] } := by
  unfold stepLine
  rw [hnl]
  unfold pLine headingStep
  rw [headingParse_not_fence hm, hm]
  simp [hcode, MDState.mk.injEq]

theorem C6_heading_line_witness :
    stepLine initState "# [a](b)".toList =
      { out := (flushList (flushPara initState)).out ++ [headingTag 1 "[a](b)".toList],
        in_code := false, in_list := false, para := [] } :=
  C6_heading_line initState "# [a](b)".toList 1 "[a](b)".toList
    (by decide) (by decide) (by decide)

-- Joining a block list that ends with a known last block.

theorem joinWith_append_last (sep : List Char) (L : List (List Char)) (x : List Char) :
    ∃ p : List Char, joinWith sep (L ++ [x]) = p ++ x := by
  induction L with
  | nil => exact ⟨[], by simp [joinWith]⟩
  | cons a L IH =>
    obtain ⟨p, hp⟩ := IH
    cases L with
    | nil => exact ⟨a ++ sep, by simp [joinWith]⟩
    | cons b L' =>
      refine ⟨a ++ sep ++ p, ?_⟩
      have h1 : joinWith sep ((a :: b :: L') ++ [x])
          = a ++ sep ++ joinWith sep ((b :: L') ++ [x]) := rfl
      rw [h1, hp, List.append_assoc, List.append_assoc, List.append_assoc]

/-- C8: whenever a conversion ends with a code block still open
(`in_code` true after folding over all lines), the end-of-input handling
appends the closing `</code></pre>`, so the output ends with it. -/
theorem C8_unclosed_fence (md : String)
    (h : ((splitLinesL md.toList).foldl stepLine initState).in_code = true) :
    ∃ pre : String, md_to_html_body md = pre ++ "</code></pre>" := by
  unfold md_to_html_body
  have h1 : finalOut ((splitLinesL md.toList).foldl stepLine initState)
      = (flushList (flushPara ((splitLinesL md.toList).foldl stepLine initState))).out
        ++ ["</code></pre>".toList] := by
    unfold finalOut
    split
    · rfl
    · next hn => exact absurd (by simpa using h) hn
  rw [h1]
  obtain ⟨p, hp⟩ := joinWith_append_last ['\n'] _ "</code></pre>".toList
  rw [hp]
  exact ⟨String.mk p, rfl⟩

theorem C8_unclosed_fence_witness :
    ∃ pre : String, md_to_html_body "```\ncode" = pre ++ "</code></pre>" :=
  C8_unclosed_fence "```\ncode" (by decide)

/-- C3, counterexample: on input `"- a\nb"` the plain text line `b` does
not close the open list — after both lines are processed the output holds
only `<ul>` and the item, and the final output places `</ul>` after the
paragraph built from `b`, not before it. -/
theorem C3_counterexample :
    md_to_html_body "- a\nb" = "<ul>\n  <li>a</li>\n<p>b</p>\n</ul>"
      ∧ ((splitLinesL "- a\nb".toList).foldl stepLine initState).out
          = ["<ul>".toList, "  <li>a</li>".toList] := by
  refine ⟨by decide, by decide⟩

/-- C3, amended: while a list is open (and no code block is), a fence
line, a heading line or a blank line emits `</ul>` before its own effect,
but a plain non-blank text line does not close the list: it is buffered
into the paragraph with the list left open. -/
theorem C3_list_close_amended (s : MDState) (line : List Char)
    (hnl : rstripNL line = line) (hcode : s.in_code = false) (hlist : s.in_list = true) :
    (fenceL line = true →
        stepLine s line =
          { out := (flushPara s).out ++ ["</ul>".toList, "<pre><code>".toList],
            in_code := true, in_list := false, para := [] })
    ∧ (∀ n t, headingParse line = some (n, t) →
        stepLine s line =
          { out := (flushPara s).out ++ ["</ul>".toList, headingTag n t],
            in_code := false, in_list := false, para := [] })
    ∧ (fenceL line = false → listMatch line = false → stripL line = [] →
        stepLine s line
          = flushPara { s with out := s.out ++ ["</ul>".toList], in_list := false })
    ∧ (fenceL line = false → headingParse line = none → listMatch line = false →
        stripL line ≠ [] →
        stepLine s line = { s with para := s.para ++ [line] }) := by
  refine ⟨?_, ?_, ?_, ?_⟩
  · intro hf
    unfold stepLine
    rw [hnl]
    unfold pLine fenceStep
    simp [hf, hcode, flushList, hlist, MDState.mk.injEq]
  · intro n t hm
    unfold stepLine
    rw [hnl]
    unfold pLine headingStep
    rw [headingParse_not_fence hm, hm]
    simp [hcode, flushList, hlist, MDState.mk.injEq]
  · intro hf hl hb
    unfold stepLine
    rw [hnl]
    unfold pLine textStep
    rw [hf, headingParse_eq_none_of_blank hb, hl]
    simp [hcode, hlist, hb, flushList]
  · intro hf hh hl hb
    unfold stepLine
    rw [hnl]
    unfold pLine textStep
    rw [hf, hh, hl]
    simp [hcode, hb]

theorem C3_list_close_amended_witness :
    stepLine (⟨[], false, true, []⟩ : MDState) []
      = flushPara { (⟨[], false, true, []⟩ : MDState) with
          out := ([] : List (List Char)) ++ ["</ul>".toList], in_list := false } :=
  (C3_list_close_amended ⟨[], false, true, []⟩ [] (by decide) (by decide)
      (by decide)).2.2.1 (by decide) (by decide) (by decide)
